import Mathlib

/-
Verification of the worktree lifecycle engine of git-branch-picker.

The development shallowly embeds the core logic of the program:
- the per-worktree safety evaluation performed by clean_worktrees
  (src/worktree.rs) together with worktree_is_dirty (src/ui.rs);
- the deletion steps of the interactive and bulk-clean journeys
  (src/worktree.rs);
- the worktree inventory gather_worktrees (src/worktree.rs);
- the provisioning operations create_and_checkout and create_worktree
  and the listing operation list_remote_branches (src/git.rs);
- the single-key action reader read_worktree_action (src/ui.rs).

Backend (libgit2) responses are modelled explicitly: every fallible
backend call appears as an Option or an explicit success flag, and
stateful operations are modelled as explicit state passing.
-/

namespace GitBranchPicker

/-! ## Safety evaluation (clean_worktrees scan, src/worktree.rs lines 167-258) -/

/-- Skip reasons produced by the per-worktree scan of clean_worktrees.
Each constructor corresponds to one string pushed into the skipped list:
loadFailure 无法加载, openFailure 无法打开仓库, dirtyWorkingTree 有未提交的修改,
noHead 无 HEAD, detachedHead HEAD 处于游离状态, headUnresolvable HEAD 无法解析,
noLocalBranch 找不到本地分支, noUpstream 无追踪分支,
upstreamUnresolvable 追踪分支无法解析, aheadOfUpstream 有未推送的提交,
graphComparisonFailure 无法比较分支进度. -/
inductive SkipReason where
  | loadFailure
  | openFailure
  | dirtyWorkingTree
  | noHead
  | detachedHead
  | headUnresolvable
  | noLocalBranch
  | noUpstream
  | upstreamUnresolvable
  | aheadOfUpstream
  | graphComparisonFailure
  deriving DecidableEq, Repr

/-- Verdict of the per-worktree scan: kept for deletion or skipped with a reason. -/
inductive SafetyVerdict where
  | eligible
  | skip (reason : SkipReason)
  deriving DecidableEq, Repr

/-- Backend response for wt_repo.head(): whether the reference is a branch
(head.is_branch), its shorthand, and its direct target (head.target). -/
structure HeadInfo where
  isBranch : Bool
  shorthand : Option String
  target : Option Nat
  deriving DecidableEq, Repr

/-- Backend responses observed for one worktree during the clean scan.
findOk models repo.find_worktree success; openOk models Repository::open
success on the worktree path; statuses models wt_repo.statuses with
untracked included, ignored excluded, unmodified excluded (some n = number
of status entries, none = backend error); head models wt_repo.head();
localBranchOk models wt_repo.find_branch(branch_name, Local) success;
upstream models branch.upstream() and its target (none = no upstream,
some none = upstream with unresolvable target, some (some oid) = resolved);
graphAheadBehind models wt_repo.graph_ahead_behind(local, upstream). -/
structure WorktreeView where
  findOk : Bool
  openOk : Bool
  statuses : Option Nat
  head : Option HeadInfo
  localBranchOk : Bool
  upstream : Option (Option Nat)
  graphAheadBehind : Option (Nat × Nat)
  deriving DecidableEq, Repr

/-- worktree_is_dirty (src/ui.rs lines 100-111): statuses query error is
conservatively dirty; otherwise dirty iff the status list is non-empty. -/
def worktree_is_dirty (statuses : Option Nat) : Bool :=
  match statuses with
  | some n => n != 0
  | none => true

/-- The per-worktree match cascade of clean_worktrees (src/worktree.rs
lines 173-257), in source order: find_worktree, Repository::open,
worktree_is_dirty, head(), is_branch, head.target, find_branch,
branch.upstream, upstream target, graph_ahead_behind, ahead > 0. -/
def evaluateWorktree (w : WorktreeView) : SafetyVerdict :=
  if !w.findOk then .skip .loadFailure
  else if !w.openOk then .skip .openFailure
  else if worktree_is_dirty w.statuses then .skip .dirtyWorkingTree
  else
    match w.head with
    | none => .skip .noHead
    | some h =>
      if !h.isBranch then .skip .detachedHead
      else
        match h.target with
        | none => .skip .headUnresolvable
        | some _ =>
          if !w.localBranchOk then .skip .noLocalBranch
          else
            match w.upstream with
            | none => .skip .noUpstream
            | some none => .skip .upstreamUnresolvable
            | some (some _) =>
              match w.graphAheadBehind with
              | none => .skip .graphComparisonFailure
              | some (ahead, _) =>
                if ahead > 0 then .skip .aheadOfUpstream else .eligible

/-- First failing check of a strictly ordered check list determines the
verdict; an empty list of failing checks means eligible. -/
def firstFailing : List (Bool × SkipReason) → SafetyVerdict
  | [] => .eligible
  | (c, r) :: rest => if c then .skip r else firstFailing rest

/-- The claimed strict check order, each check stated as an absolute
condition on the backend responses: load failure, open failure, dirty
working tree, no HEAD, detached HEAD, HEAD unresolvable, no local branch,
no upstream, upstream unresolvable, ahead of upstream, graph-comparison
failure. -/
def specChecks (w : WorktreeView) : List (Bool × SkipReason) :=
  [ (!w.findOk, .loadFailure),
    (!w.openOk, .openFailure),
    (worktree_is_dirty w.statuses, .dirtyWorkingTree),
    (w.head.isNone, .noHead),
    ((match w.head with | some h => !h.isBranch | none => false), .detachedHead),
    ((match w.head with | some h => h.target.isNone | none => false), .headUnresolvable),
    (!w.localBranchOk, .noLocalBranch),
    (w.upstream.isNone, .noUpstream),
    ((match w.upstream with | some none => true | _ => false), .upstreamUnresolvable),
    ((match w.graphAheadBehind with | some (a, _) => decide (a > 0) | none => false),
      .aheadOfUpstream),
    (w.graphAheadBehind.isNone, .graphComparisonFailure) ]

/-- Condition (a) of the eligibility invariant: the working tree reports
zero modified or added or deleted or untracked entries; this presupposes the
worktree record loads and the worktree opens. -/
def reportsCleanStatus (w : WorktreeView) : Prop :=
  w.findOk = true ∧ w.openOk = true ∧ w.statuses = some 0

/-- Condition (b): HEAD points at a named local branch (not detached),
with a resolvable tip, and that branch is found as a local branch. -/
def headOnNamedLocalBranch (w : WorktreeView) : Prop :=
  ∃ h, w.head = some h ∧ h.isBranch = true ∧ (∃ t, h.target = some t) ∧
    w.localBranchOk = true

/-- Condition (c): the local branch has a configured upstream whose tip
resolves. -/
def hasResolvableUpstream (w : WorktreeView) : Prop :=
  ∃ t, w.upstream = some (some t)

/-- Condition (d): the ahead count (commits reachable from the local tip
but not from the upstream tip) is exactly zero. -/
def aheadCountZero (w : WorktreeView) : Prop :=
  ∃ behind, w.graphAheadBehind = some (0, behind)

/-! ## Theorems for the safety evaluation -/

set_option maxHeartbeats 4000000 in
/-- C1: a non-primary worktree record is classified eligible iff the
working tree is clean, HEAD is on a named local branch, that branch has a
resolvable upstream, and the ahead count is exactly zero; and the verdict
always equals the first failing check of the claimed strict order (load
failure, open failure, dirty, no HEAD, detached, HEAD unresolvable, no
local branch, no upstream, upstream unresolvable, ahead, graph failure). -/
theorem evaluateWorktree_eligible_iff_and_order (w : WorktreeView) :
    evaluateWorktree w = firstFailing (specChecks w) ∧
    (evaluateWorktree w = .eligible ↔
      reportsCleanStatus w ∧ headOnNamedLocalBranch w ∧
      hasResolvableUpstream w ∧ aheadCountZero w) := by
  obtain ⟨fo, oo, st, hd, lb, up, gr⟩ := w
  cases fo <;> cases oo <;>
    rcases st with _ | (_ | n) <;>
    rcases hd with _ | ⟨ib, sh, tg⟩ <;>
    (try cases ib) <;>
    (try rcases tg with _ | t) <;>
    cases lb <;>
    rcases up with _ | (_ | u) <;>
    rcases gr with _ | ⟨(_ | a), b⟩ <;>
    simp [evaluateWorktree, firstFailing, specChecks, worktree_is_dirty,
      reportsCleanStatus, headOnNamedLocalBranch, hasResolvableUpstream,
      aheadCountZero]

/-- C3: a backend error while computing status makes worktree_is_dirty
report dirty, and such a worktree is never classified eligible. -/
theorem status_error_is_dirty_never_eligible (w : WorktreeView)
    (h : w.statuses = none) :
    worktree_is_dirty w.statuses = true ∧ evaluateWorktree w ≠ .eligible := by
  obtain ⟨fo, oo, st, hd, lb, up, gr⟩ := w
  simp only at h
  subst h
  refine ⟨rfl, ?_⟩
  cases fo <;> cases oo <;> simp [evaluateWorktree, worktree_is_dirty]

/-- Witness for C3 at a concrete worktree view whose status query failed. -/
theorem status_error_is_dirty_never_eligible_witness :
    worktree_is_dirty (WorktreeView.mk true true none none true none none).statuses
        = true ∧
      evaluateWorktree (WorktreeView.mk true true none none true none none) ≠
        .eligible :=
  status_error_is_dirty_never_eligible
    (WorktreeView.mk true true none none true none none) rfl

/-! ## Worktree deletion (src/worktree.rs lines 119-131 and 293-305) -/

/-- Observable events of one worktree deletion, in emission order:
the fs::remove_dir_all call and its outcome, the
find_worktree(..).and_then(prune) call and its warning on failure, and
the final success message printed for the item. -/
inductive DelEvent where
  | removeAttempt (path : String)
  | removeFailed (path : String)
  | removeSucceeded (path : String)
  | pruneAttempt (name : String)
  | pruneWarning (name : String)
  | successMessage (name : String)
  deriving DecidableEq, Repr

/-- Shared mutable state touched by a deletion: the set of worktree
directories on disk and the set of worktree metadata entries the backend
holds (keyed by worktree name). -/
structure WorktreeStore where
  dirs : List String
  meta : List String
  deriving DecidableEq, Repr

/-- One iteration of the bulk-clean removal loop (src/worktree.rs lines
294-305): remove_dir_all first; on failure report and continue without
touching metadata; on success prune the metadata entry, a prune failure
being only a warning; the item counts as removed (Bool result) exactly
when the directory removal succeeded. removeOk and pruneOk are the
outcomes of the two environment calls. -/
def bulkDeleteStep (removeOk pruneOk : Bool) (name path : String)
    (st : WorktreeStore) : WorktreeStore × List DelEvent × Bool :=
  if !removeOk then
    (st, [.removeAttempt path, .removeFailed path], false)
  else
    let st1 : WorktreeStore := { st with dirs := st.dirs.erase path }
    if !pruneOk then
      (st1,
        [.removeAttempt path, .removeSucceeded path, .pruneAttempt name,
          .pruneWarning name, .successMessage name], true)
    else
      ({ st1 with meta := st1.meta.erase name },
        [.removeAttempt path, .removeSucceeded path, .pruneAttempt name,
          .successMessage name], true)

/-- The confirmed-deletion block of the interactive journey
(src/worktree.rs lines 119-131): identical ordering to the bulk step. -/
def interactiveDeleteStep (removeOk pruneOk : Bool) (name path : String)
    (st : WorktreeStore) : WorktreeStore × List DelEvent :=
  if !removeOk then
    (st, [.removeAttempt path, .removeFailed path])
  else
    let st1 : WorktreeStore := { st with dirs := st.dirs.erase path }
    if !pruneOk then
      (st1,
        [.removeAttempt path, .removeSucceeded path, .pruneAttempt name,
          .pruneWarning name, .successMessage name])
    else
      ({ st1 with meta := st1.meta.erase name },
        [.removeAttempt path, .removeSucceeded path, .pruneAttempt name,
          .successMessage name])

/-- One entry of the to_remove list of clean_worktrees, together with the
outcomes of the environment calls its deletion will make. -/
structure CleanTarget where
  name : String
  path : String
  removeOk : Bool
  pruneOk : Bool
  deriving DecidableEq, Repr

/-- The post-confirmation removal loop of clean_worktrees (src/worktree.rs
lines 293-305): iterate over to_remove, run the deletion step for each,
count the successful removals. -/
def clean_remove_loop : List CleanTarget → WorktreeStore →
    WorktreeStore × Nat × List DelEvent
  | [], st => (st, 0, [])
  | t :: rest, st =>
    let step := bulkDeleteStep t.removeOk t.pruneOk t.name t.path st
    let restRes := clean_remove_loop rest step.1
    (restRes.1, (if step.2.2 then 1 else 0) + restRes.2.1, step.2.1 ++ restRes.2.2)

/-- Projection selecting the directory-removal attempts of a trace. -/
def attemptPath : DelEvent → Option String
  | .removeAttempt p => some p
  | _ => none

/-! ## Interactive single-key action reader (src/ui.rs lines 71-98) -/

/-- Key codes distinguished by read_worktree_action. -/
inductive KeyCode where
  | enter
  | esc
  | char (c : Char)
  | other
  deriving DecidableEq, Repr

/-- Key modifiers: only the control flag is inspected. -/
structure KeyMods where
  ctrl : Bool
  deriving DecidableEq, Repr

/-- Actions offered on a selected worktree record. -/
inductive WtAction where
  | cd
  | delete
  | back
  | cancel
  deriving DecidableEq, Repr

/-- read_worktree_action (src/ui.rs lines 71-98) over a stream of key
events: Enter is cd, the d key is delete but only when the record is not
primary, Esc and q are back, Ctrl+c is cancel, anything else is skipped;
none models a stream exhausted before a decisive key. -/
def read_worktree_action (is_main : Bool) :
    List (KeyCode × KeyMods) → Option WtAction
  | [] => none
  | (code, m) :: rest =>
    match code with
    | .enter => some .cd
    | .esc => some .back
    | .char c =>
      if c = 'd' && !is_main then some .delete
      else if c = 'q' then some .back
      else if c = 'c' && m.ctrl then some .cancel
      else read_worktree_action is_main rest
    | .other => read_worktree_action is_main rest

/-! ## Theorems for deletion ordering and the bulk loop -/

/-- C2: in both deletion paths, a filesystem-removal failure leaves the
store untouched, attempts no prune, and reports the error; the prune is
attempted only after (and directly after) a successful removal; a prune
failure after successful removal leaves that one metadata entry intact but
is only a warning, the item still finishing with its success message (and,
in the bulk path, still counted). -/
theorem deletion_fs_first_prune_after (pruneOk : Bool) (name path : String)
    (st : WorktreeStore) :
    ((bulkDeleteStep false pruneOk name path st).1 = st ∧
      (∀ n, DelEvent.pruneAttempt n ∉ (bulkDeleteStep false pruneOk name path st).2.1) ∧
      DelEvent.removeFailed path ∈ (bulkDeleteStep false pruneOk name path st).2.1 ∧
      (bulkDeleteStep false pruneOk name path st).2.2 = false) ∧
    ((interactiveDeleteStep false pruneOk name path st).1 = st ∧
      (∀ n, DelEvent.pruneAttempt n ∉ (interactiveDeleteStep false pruneOk name path st).2) ∧
      DelEvent.removeFailed path ∈ (interactiveDeleteStep false pruneOk name path st).2) ∧
    (∃ tl, (bulkDeleteStep true pruneOk name path st).2.1 =
        DelEvent.removeAttempt path :: DelEvent.removeSucceeded path ::
          DelEvent.pruneAttempt name :: tl) ∧
    (∃ tl, (interactiveDeleteStep true pruneOk name path st).2 =
        DelEvent.removeAttempt path :: DelEvent.removeSucceeded path ::
          DelEvent.pruneAttempt name :: tl) ∧
    ((bulkDeleteStep true false name path st).1.meta = st.meta ∧
      DelEvent.pruneWarning name ∈ (bulkDeleteStep true false name path st).2.1 ∧
      DelEvent.successMessage name ∈ (bulkDeleteStep true false name path st).2.1 ∧
      (bulkDeleteStep true false name path st).2.2 = true) ∧
    ((interactiveDeleteStep true false name path st).1.meta = st.meta ∧
      DelEvent.pruneWarning name ∈ (interactiveDeleteStep true false name path st).2 ∧
      DelEvent.successMessage name ∈ (interactiveDeleteStep true false name path st).2) := by
  cases pruneOk <;>
    simp [bulkDeleteStep, interactiveDeleteStep]

/-- Helper: the removal attempts of one bulk deletion step are exactly the
one directory it targets. -/
theorem bulkDeleteStep_attempts (removeOk pruneOk : Bool) (name path : String)
    (st : WorktreeStore) :
    ((bulkDeleteStep removeOk pruneOk name path st).2.1).filterMap attemptPath
      = [path] := by
  cases removeOk <;> cases pruneOk <;>
    simp [bulkDeleteStep, attemptPath, List.filterMap]

/-- Helper: one bulk deletion step counts as removed exactly when the
directory removal succeeded. -/
theorem bulkDeleteStep_counted (removeOk pruneOk : Bool) (name path : String)
    (st : WorktreeStore) :
    (bulkDeleteStep removeOk pruneOk name path st).2.2 = removeOk := by
  cases removeOk <;> cases pruneOk <;> simp [bulkDeleteStep]

/-- C8: the bulk-clean removal loop attempts every confirmed worktree in
order (one failed deletion aborts nothing), and the final reported count
equals the number of worktrees whose filesystem removal succeeded. -/
theorem clean_remove_loop_total_and_count (targets : List CleanTarget)
    (st : WorktreeStore) :
    (clean_remove_loop targets st).2.1 =
        (targets.filter fun t => t.removeOk).length ∧
    ((clean_remove_loop targets st).2.2).filterMap attemptPath =
        targets.map (fun t => t.path) := by
  induction targets generalizing st with
  | nil => simp [clean_remove_loop]
  | cons t rest ih =>
    obtain ⟨ih1, ih2⟩ :=
      ih (bulkDeleteStep t.removeOk t.pruneOk t.name t.path st).1
    constructor
    · simp only [clean_remove_loop, ih1, bulkDeleteStep_counted, List.filter]
      cases h : t.removeOk <;> (simp; try omega)
    · simp only [clean_remove_loop, List.filterMap_append,
        bulkDeleteStep_attempts, ih2, List.map]
      simp

/-! ## Worktree inventory (gather_worktrees, src/worktree.rs lines 23-68) -/

/-- One linked worktree as the backend enumerates it: its name (none when
the backend yields an invalid name), the path its record reports, and the
backend responses observed when probing it (view.findOk is find_worktree
success, view.openOk is Repository::open success, and so on). -/
structure LinkedWorktree where
  name : Option String
  path : String
  view : WorktreeView
  deriving DecidableEq, Repr

/-- Backend state consumed by the inventory and the clean scan: the
primary working directory if any, the primary HEAD shorthand if any,
whether repo.worktrees() succeeds, and the linked-worktree enumeration. -/
structure InventoryRepo where
  workdir : Option String
  headShorthand : Option String
  worktreesOk : Bool
  linked : List LinkedWorktree
  deriving DecidableEq, Repr

/-- The WorktreeEntry record of src/worktree.rs lines 10-15. -/
structure WorktreeEntry where
  name : String
  branch : String
  path : String
  is_main : Bool
  deriving DecidableEq, Repr

/-- Branch label shown for a linked worktree (src/worktree.rs lines
51-58): open failure gives the unknown sentinel, an opened worktree shows
its HEAD shorthand or the detached sentinel. -/
def linkedBranchLabel (w : LinkedWorktree) : String :=
  if !w.view.openOk then "(unknown)"
  else (w.view.head.bind fun h => h.shorthand).getD "(detached)"

/-- The linked-worktree loop of gather_worktrees (src/worktree.rs lines
41-65): an invalid name or a find_worktree failure skips the entry with
continue; otherwise the entry is pushed with is_main false. -/
def gatherLinked : List LinkedWorktree → List WorktreeEntry
  | [] => []
  | w :: rest =>
    match w.name with
    | none => gatherLinked rest
    | some nm =>
      if !w.view.findOk then gatherLinked rest
      else
        { name := nm, branch := linkedBranchLabel w, path := w.path,
          is_main := false } :: gatherLinked rest

/-- The synthesized primary record (src/worktree.rs lines 26-38). -/
def primaryEntry (repo : InventoryRepo) (d : String) : WorktreeEntry :=
  { name := "(main)", branch := repo.headShorthand.getD "(detached)",
    path := d, is_main := true }

/-- gather_worktrees (src/worktree.rs lines 23-68): the primary record is
pushed only when the backend reports a working directory; the call fails
exactly when repo.worktrees() fails. -/
def gather_worktrees (repo : InventoryRepo) : Except Unit (List WorktreeEntry) :=
  let mainEntries : List WorktreeEntry :=
    match repo.workdir with
    | some d => [primaryEntry repo d]
    | none => []
  if !repo.worktreesOk then .error ()
  else .ok (mainEntries ++ gatherLinked repo.linked)

/-- Spec-shaped listing of the linked worktrees: exactly those enumerated
entries with a valid name whose record loads, in enumeration order. -/
def listedLinked (ws : List LinkedWorktree) : List WorktreeEntry :=
  ws.filterMap fun w =>
    match w.name with
    | none => none
    | some nm =>
      if w.view.findOk then
        some { name := nm, branch := linkedBranchLabel w, path := w.path,
               is_main := false }
      else none

/-- The candidate-collection scan of clean_worktrees (src/worktree.rs
lines 167-258): over the linked enumeration only, invalid names are
skipped, and each worktree lands in to_remove (name and path) or in
skipped (name and reason) according to the safety evaluation. -/
def cleanScan : List LinkedWorktree →
    List (String × String) × List (String × SkipReason)
  | [] => ([], [])
  | w :: rest =>
    let r := cleanScan rest
    match w.name with
    | none => r
    | some nm =>
      match evaluateWorktree w.view with
      | .eligible => ((nm, w.path) :: r.1, r.2)
      | .skip reason => (r.1, (nm, reason) :: r.2)

/-- The two linked-worktree walks agree: the gather loop lists exactly the
loadable, validly named entries in enumeration order. -/
theorem gatherLinked_eq_listedLinked (ws : List LinkedWorktree) :
    gatherLinked ws = listedLinked ws := by
  induction ws with
  | nil => rfl
  | cons w rest ih =>
    cases h : w.name with
    | none => simp [gatherLinked, listedLinked, List.filterMap_cons, h, ih]
    | some nm =>
      cases hf : w.view.findOk <;>
        simp [gatherLinked, listedLinked, List.filterMap_cons, h, hf, ih]

/-- Every bulk-clean candidate is one of the enumerated linked worktrees. -/
theorem cleanScan_candidates_from_enumeration (ws : List LinkedWorktree) :
    ∀ c ∈ (cleanScan ws).1, ∃ w ∈ ws, w.name = some c.1 ∧ w.path = c.2 := by
  induction ws with
  | nil => intro c hc; simp [cleanScan] at hc
  | cons w rest ih =>
    intro c hc
    simp only [cleanScan] at hc
    cases hn : w.name with
    | none =>
      rw [hn] at hc
      obtain ⟨w', hw', h⟩ := ih c hc
      exact ⟨w', List.mem_cons_of_mem w hw', h⟩
    | some nm =>
      rw [hn] at hc
      cases he : evaluateWorktree w.view with
      | eligible =>
        rw [he] at hc
        rcases List.mem_cons.mp hc with h | h
        · exact ⟨w, List.mem_cons_self w rest,
            by rw [h]; exact hn, by rw [h]⟩
        · obtain ⟨w', hw', hh⟩ := ih c h
          exact ⟨w', List.mem_cons_of_mem w hw', hh⟩
      | skip reason =>
        rw [he] at hc
        obtain ⟨w', hw', hh⟩ := ih c hc
        exact ⟨w', List.mem_cons_of_mem w hw', hh⟩

/-- Every record produced by the linked-worktree walk is non-primary. -/
theorem listedLinked_not_main (ws : List LinkedWorktree) :
    ∀ e ∈ listedLinked ws, e.is_main = false := by
  intro e he
  simp only [listedLinked, List.mem_filterMap] at he
  obtain ⟨w, _, hw⟩ := he
  cases hn : w.name <;> rw [hn] at hw <;> simp at hw
  cases hf : w.view.findOk <;> rw [hf] at hw <;> simp at hw
  rw [← hw]

/-! ## Theorems for the inventory -/

/-- Concrete repository refuting C7: a bare repository (no working
directory) with a single linked worktree whose record fails to load. -/
def c7CexRepo : InventoryRepo :=
  { workdir := none, headShorthand := none, worktreesOk := true,
    linked := [{ name := some "wt1", path := "/tmp/wt1",
                 view := { findOk := false, openOk := false, statuses := none,
                           head := none, localBranchOk := false,
                           upstream := none, graphAheadBehind := none } }] }

/-- C7 counterexample: on a bare repository the inventory succeeds with an
empty list — its first element is not a primary record — and the linked
worktree wt1, whose branch cannot be resolved because its record fails to
load, is dropped instead of being listed with the unknown sentinel. -/
theorem gather_worktrees_c7_counterexample :
    gather_worktrees c7CexRepo = Except.ok [] := rfl

/-- C7 amended: the inventory fails exactly when the backend cannot
enumerate worktrees; when the backend reports a working directory the
first element is the synthesized primary record followed, in enumeration
order, by exactly the validly named linked worktrees whose records load
(an unopenable one being listed with the unknown sentinel rather than
dropped, per linkedBranchLabel); and every listed linked record is
non-primary. -/
theorem gather_worktrees_amended (repo : InventoryRepo) :
    (repo.worktreesOk = false ↔ gather_worktrees repo = .error ()) ∧
    (∀ d, repo.worktreesOk = true → repo.workdir = some d →
      gather_worktrees repo =
        .ok (primaryEntry repo d :: listedLinked repo.linked)) ∧
    (∀ e ∈ listedLinked repo.linked, e.is_main = false) := by
  refine ⟨?_, ?_, listedLinked_not_main repo.linked⟩
  · cases h : repo.worktreesOk <;> simp [gather_worktrees, h]
  · intro d hok hwd
    simp [gather_worktrees, hok, hwd, gatherLinked_eq_listedLinked]

/-- Concrete repository for the C7 witness: a working directory, one
loadable but unopenable linked worktree. -/
def c7WitRepo : InventoryRepo :=
  { workdir := some "/repo", headShorthand := some "main", worktreesOk := true,
    linked := [{ name := some "wt1", path := "/tmp/wt1",
                 view := { findOk := true, openOk := false, statuses := none,
                           head := none, localBranchOk := false,
                           upstream := none, graphAheadBehind := none } }] }

/-- Witness for the amended C7 at a concrete repository. -/
theorem gather_worktrees_amended_witness :
    gather_worktrees c7WitRepo =
      .ok (primaryEntry c7WitRepo "/repo" :: listedLinked c7WitRepo.linked) :=
  (gather_worktrees_amended c7WitRepo).2.1 "/repo" rfl rfl

/-- C9: the primary worktree is never deleted: every bulk-clean candidate
comes from the linked-worktree enumeration (which never contains the
primary), the only primary-flagged record an inventory can produce is the
synthesized one for the working directory, and for a primary record the
interactive key reader can never produce the delete action. -/
theorem primary_never_deleted (repo : InventoryRepo) (l : List WorktreeEntry)
    (keys : List (KeyCode × KeyMods)) :
    (∀ c ∈ (cleanScan repo.linked).1,
      ∃ w ∈ repo.linked, w.name = some c.1 ∧ w.path = c.2) ∧
    (gather_worktrees repo = .ok l → ∀ e ∈ l, e.is_main = true →
      ∃ d, repo.workdir = some d ∧ e = primaryEntry repo d) ∧
    read_worktree_action true keys ≠ some WtAction.delete := by
  refine ⟨cleanScan_candidates_from_enumeration repo.linked, ?_, ?_⟩
  · intro hok e he hmain
    simp only [gather_worktrees] at hok
    cases hw : repo.worktreesOk with
    | false => rw [hw] at hok; simp at hok
    | true =>
      rw [hw] at hok
      simp only [Bool.not_true, Bool.false_eq_true, if_neg, reduceIte,
        Except.ok.injEq] at hok
      cases hd : repo.workdir with
      | none =>
        rw [hd] at hok
        simp only [List.nil_append] at hok
        rw [← hok, gatherLinked_eq_listedLinked] at he
        have := listedLinked_not_main repo.linked e he
        rw [hmain] at this
        exact absurd this (by simp)
      | some d =>
        rw [hd] at hok
        simp only [List.singleton_append] at hok
        rw [← hok] at he
        rcases List.mem_cons.mp he with h | h
        · exact ⟨d, rfl, h⟩
        · rw [gatherLinked_eq_listedLinked] at h
          have := listedLinked_not_main repo.linked e h
          rw [hmain] at this
          exact absurd this (by simp)
  · induction keys with
    | nil => simp [read_worktree_action]
    | cons k rest ih =>
      obtain ⟨code, m⟩ := k
      cases code with
      | enter => simp [read_worktree_action]
      | esc => simp [read_worktree_action]
      | other => simpa [read_worktree_action] using ih
      | char c =>
        simp only [read_worktree_action]
        by_cases hq : c = 'q'
        · simp [hq]
        · by_cases hcc : c = 'c' && m.ctrl
          · simp [hq, hcc]
          · simpa [hq, hcc] using ih

/-- Concrete inputs for the C9 witness: one clean eligible linked
worktree, its inventory, and a key stream pressing d then Esc. -/
def c9Repo : InventoryRepo :=
  { workdir := some "/repo", headShorthand := some "main", worktreesOk := true,
    linked := [{ name := some "wt1", path := "/tmp/wt1",
                 view := { findOk := true, openOk := true, statuses := some 0,
                           head := some { isBranch := true,
                                          shorthand := some "feat",
                                          target := some 5 },
                           localBranchOk := true, upstream := some (some 5),
                           graphAheadBehind := some (0, 0) } }] }

/-- Witness for C9 at concrete inputs, discharging each hypothesis. -/
theorem primary_never_deleted_witness :
    (∃ w ∈ c9Repo.linked, w.name = some "wt1" ∧ w.path = "/tmp/wt1") ∧
    (∃ d, c9Repo.workdir = some d ∧
      primaryEntry c9Repo "/repo" = primaryEntry c9Repo d) ∧
    read_worktree_action true
        [(KeyCode.char 'd', { ctrl := false }), (KeyCode.esc, { ctrl := false })]
      ≠ some WtAction.delete := by
  obtain ⟨h1, h2, h3⟩ := primary_never_deleted c9Repo
    (primaryEntry c9Repo "/repo" :: listedLinked c9Repo.linked)
    [(KeyCode.char 'd', { ctrl := false }), (KeyCode.esc, { ctrl := false })]
  refine ⟨h1 ("wt1", "/tmp/wt1") (by simp [cleanScan, c9Repo, evaluateWorktree, worktree_is_dirty]), ?_, h3⟩
  exact h2 rfl (primaryEntry c9Repo "/repo") (List.mem_cons_self _ _) rfl

/-! ## Branch provisioning and remote listing (src/git.rs) -/

/-- Errors surfaced by the provisioning and listing operations of
src/git.rs, one constructor per context message of the source:
remoteRefNotFound 找不到远端分支 origin/... 请先执行 git fetch,
peelFailed 无法解析提交对象, branchCreateFailed 创建分支失败 分支名可能已存在,
checkoutFailed 切换工作区失败 请先提交或暂存当前修改,
worktreeAddFailed 创建 worktree 失败,
missingOriginRemote 未找到名为 origin 的远程仓库 请先添加 remote,
branchIterationFailed models a propagated backend error while iterating
remote branches. -/
inductive GitError where
  | remoteRefNotFound (branch : String)
  | peelFailed
  | branchCreateFailed (name : String)
  | checkoutFailed
  | worktreeAddFailed
  | missingOriginRemote
  | branchIterationFailed
  deriving DecidableEq, Repr

/-- The repository state touched by src/git.rs: the ref store (a ref name
maps to some oid when it peels to a commit, to none when peeling fails),
the string-keyed config store, the symbolic HEAD, whether uncommitted
changes would make checkout_tree fail, whether the backend worktree-add
call succeeds, and the worktree metadata (name and path pairs). -/
structure Repo where
  refs : List (String × Option Nat)
  config : List (String × String)
  headRef : String
  workdirDirty : Bool
  worktreeAddOk : Bool
  worktrees : List (String × String)
  deriving DecidableEq, Repr

/-- repo.find_reference: none when the ref does not exist. -/
def findReference (repo : Repo) (name : String) : Option (Option Nat) :=
  (repo.refs.find? fun e => e.1 == name).map fun e => e.2

/-- config.set_str on the repository config store. -/
def configSet (repo : Repo) (k v : String) : Repo :=
  { repo with config := (k, v) :: repo.config }

/-- Lookup in the repository config store (most recent write wins). -/
def configGet (repo : Repo) (k : String) : Option String :=
  (repo.config.find? fun e => e.1 == k).map fun e => e.2

/-- create_and_checkout (src/git.rs lines 27-55): resolve
refs/remotes/origin/branch and peel it, create the local branch at that
commit (failing on an existing refs/heads entry), check out the tree
(failing when uncommitted changes block the switch — note the branch was
already created at this point), move HEAD, then write the two tracking
config keys. Returns the final state alongside the error, if any. -/
def create_and_checkout (repo : Repo) (remote_branch new_name : String) :
    Repo × Option GitError :=
  match findReference repo ("refs/remotes/origin/" ++ remote_branch) with
  | none => (repo, some (.remoteRefNotFound remote_branch))
  | some none => (repo, some .peelFailed)
  | some (some oid) =>
    if (findReference repo ("refs/heads/" ++ new_name)).isSome then
      (repo, some (.branchCreateFailed new_name))
    else
      let repo1 : Repo :=
        { repo with refs := ("refs/heads/" ++ new_name, some oid) :: repo.refs }
      if repo1.workdirDirty then (repo1, some .checkoutFailed)
      else
        let repo2 : Repo := { repo1 with headRef := "refs/heads/" ++ new_name }
        let repo3 := configSet repo2 ("branch." ++ new_name ++ ".remote") "origin"
        let repo4 := configSet repo3 ("branch." ++ new_name ++ ".merge")
          ("refs/heads/" ++ remote_branch)
        (repo4, none)

/-- create_worktree (src/git.rs lines 57-99): resolve and peel the remote
ref to an oid, create the local branch in its own block, re-find the
branch reference, materialize the worktree bound to it (the branch is not
rolled back when this fails), then write the two tracking config keys. -/
def create_worktree (repo : Repo) (remote_branch new_name worktree_path : String) :
    Repo × Option GitError :=
  match findReference repo ("refs/remotes/origin/" ++ remote_branch) with
  | none => (repo, some (.remoteRefNotFound remote_branch))
  | some none => (repo, some .peelFailed)
  | some (some oid) =>
    if (findReference repo ("refs/heads/" ++ new_name)).isSome then
      (repo, some (.branchCreateFailed new_name))
    else
      let repo1 : Repo :=
        { repo with refs := ("refs/heads/" ++ new_name, some oid) :: repo.refs }
      if !repo1.worktreeAddOk then (repo1, some .worktreeAddFailed)
      else
        let repo2 : Repo :=
          { repo1 with worktrees := (new_name, worktree_path) :: repo1.worktrees }
        let repo3 := configSet repo2 ("branch." ++ new_name ++ ".remote") "origin"
        let repo4 := configSet repo3 ("branch." ++ new_name ++ ".merge")
          ("refs/heads/" ++ remote_branch)
        (repo4, none)

/-- One item yielded by repo.branches(Some(BranchType::Remote)): the
iterator itself can fail, branch.name() can fail, or a name (possibly
invalid, hence optional) is produced. -/
inductive RemoteBranchItem where
  | itemError
  | nameError
  | named (name : Option String)
  deriving DecidableEq, Repr

/-- Backend state consumed by list_remote_branches: the configured remote
names and the remote-tracking branch enumeration. -/
structure RemoteRepo where
  remotes : List String
  remoteBranches : List RemoteBranchItem
  deriving DecidableEq, Repr

/-- name.strip_prefix of the literal origin/ applied to a branch name. -/
def stripOriginOf (name : String) : Option String :=
  match name.data with
  | 'o' :: 'r' :: 'i' :: 'g' :: 'i' :: 'n' :: '/' :: rest => some (String.mk rest)
  | _ => none

/-- The branch-collection loop of list_remote_branches (src/git.rs lines
13-23): a failing iterator item or name query propagates as an error
(none); otherwise names under origin/ other than the symbolic HEAD are
kept, stripped, in enumeration order. -/
def collectRemoteNames : List RemoteBranchItem → Option (List String)
  | [] => some []
  | .itemError :: _ => none
  | .nameError :: _ => none
  | .named o :: rest =>
    match collectRemoteNames rest with
    | none => none
    | some tl =>
      match o with
      | none => some tl
      | some nm =>
        match stripOriginOf nm with
        | none => some tl
        | some short => if short != "HEAD" then some (short :: tl) else some tl

/-- list_remote_branches (src/git.rs lines 9-25): require the origin
remote, then collect the stripped origin-tracking names. -/
def list_remote_branches (rrepo : RemoteRepo) : Except GitError (List String) :=
  if !(rrepo.remotes.contains "origin") then .error .missingOriginRemote
  else
    match collectRemoteNames rrepo.remoteBranches with
    | none => .error .branchIterationFailed
    | some l => .ok l

/-- Spec-shaped cleaned listing: the names under origin/, stripped, HEAD
excluded, in enumeration order, ignoring item shape errors. -/
def cleanedNames : List RemoteBranchItem → List String
  | [] => []
  | .itemError :: rest => cleanedNames rest
  | .nameError :: rest => cleanedNames rest
  | .named none :: rest => cleanedNames rest
  | .named (some nm) :: rest =>
    match stripOriginOf nm with
    | none => cleanedNames rest
    | some short =>
      if short != "HEAD" then short :: cleanedNames rest else cleanedNames rest

/-- Whether every enumerated branch item yielded a name without error. -/
def enumerationClean : List RemoteBranchItem → Bool
  | [] => true
  | .itemError :: _ => false
  | .nameError :: _ => false
  | .named _ :: rest => enumerationClean rest

/-! ## Helper lemmas for the provisioning model -/

/-- The two tracking config keys of one branch are distinct strings. -/
theorem branch_config_keys_ne (n : String) :
    ("branch." ++ n ++ ".remote" : String) ≠ "branch." ++ n ++ ".merge" := by
  intro h
  have h2 : ("branch." ++ n ++ ".remote").data
      = ("branch." ++ n ++ ".merge").data := by rw [h]
  simp [String.data_append] at h2

/-- Reading back the key just written. -/
theorem configGet_set_self (r : Repo) (k v : String) :
    configGet (configSet r k v) k = some v := by
  simp [configGet, configSet, List.find?]

/-- Writing one key leaves every other key unchanged. -/
theorem configGet_set_other (r : Repo) (k k' v : String) (h : k ≠ k') :
    configGet (configSet r k v) k' = configGet r k' := by
  simp [configGet, configSet, List.find?_cons, h]

/-- A stripped name recovers the original by re-attaching the origin/
marker. -/
theorem stripOriginOf_eq (nm s : String) (h : stripOriginOf nm = some s) :
    nm = "origin/" ++ s := by
  unfold stripOriginOf at h
  split at h
  case h_1 rest heq =>
    simp only [Option.some.injEq] at h
    apply String.ext
    rw [heq, String.data_append, ← h]
    rfl
  case h_2 => exact absurd h (by simp)

/-- A clean enumeration collects exactly the cleaned names. -/
theorem collectRemoteNames_of_clean (items : List RemoteBranchItem)
    (h : enumerationClean items = true) :
    collectRemoteNames items = some (cleanedNames items) := by
  induction items with
  | nil => rfl
  | cons it rest ih =>
    cases it with
    | itemError => simp [enumerationClean] at h
    | nameError => simp [enumerationClean] at h
    | named o =>
      have hr := ih (by simpa [enumerationClean] using h)
      cases o with
      | none => simp [collectRemoteNames, cleanedNames, hr]
      | some nm =>
        cases hso : stripOriginOf nm with
        | none => simp [collectRemoteNames, cleanedNames, hr, hso]
        | some short =>
          cases hb : (short != "HEAD") <;>
            simp [collectRemoteNames, cleanedNames, hr, hso, hb]

/-- Whenever the collection loop succeeds it returns the cleaned names. -/
theorem collectRemoteNames_some_eq (items : List RemoteBranchItem)
    (l : List String) (h : collectRemoteNames items = some l) :
    l = cleanedNames items := by
  induction items generalizing l with
  | nil =>
    simp only [collectRemoteNames, Option.some.injEq] at h
    rw [← h]; rfl
  | cons it rest ih =>
    cases it with
    | itemError => simp [collectRemoteNames] at h
    | nameError => simp [collectRemoteNames] at h
    | named o =>
      cases hr : collectRemoteNames rest with
      | none => simp [collectRemoteNames, hr] at h
      | some tl =>
        have htl := ih tl hr
        cases o with
        | none =>
          simp only [collectRemoteNames, hr, Option.some.injEq] at h
          rw [← h, htl]; rfl
        | some nm =>
          cases hso : stripOriginOf nm with
          | none =>
            simp only [collectRemoteNames, hr, hso, Option.some.injEq] at h
            simp [cleanedNames, hso, ← h, htl]
          | some short =>
            cases hb : (short != "HEAD") <;>
              simp only [collectRemoteNames, hr, hso, hb, Bool.false_eq_true,
                reduceIte, Option.some.injEq] at h <;>
              simp [cleanedNames, hso, hb, ← h, htl]

/-- Every cleaned name arises from an enumerated origin-tracking branch
and is not the symbolic HEAD. -/
theorem cleanedNames_mem (items : List RemoteBranchItem) :
    ∀ s ∈ cleanedNames items, s ≠ "HEAD" ∧
      RemoteBranchItem.named (some ("origin/" ++ s)) ∈ items := by
  induction items with
  | nil => intro s hs; simp [cleanedNames] at hs
  | cons it rest ih =>
    intro s hs
    cases it with
    | itemError =>
      obtain ⟨h1, h2⟩ := ih s (by simpa [cleanedNames] using hs)
      exact ⟨h1, List.mem_cons_of_mem _ h2⟩
    | nameError =>
      obtain ⟨h1, h2⟩ := ih s (by simpa [cleanedNames] using hs)
      exact ⟨h1, List.mem_cons_of_mem _ h2⟩
    | named o =>
      cases o with
      | none =>
        obtain ⟨h1, h2⟩ := ih s (by simpa [cleanedNames] using hs)
        exact ⟨h1, List.mem_cons_of_mem _ h2⟩
      | some nm =>
        cases hso : stripOriginOf nm with
        | none =>
          simp only [cleanedNames, hso] at hs
          obtain ⟨h1, h2⟩ := ih s hs
          exact ⟨h1, List.mem_cons_of_mem _ h2⟩
        | some short =>
          cases hb : (short != "HEAD") with
          | false =>
            simp only [cleanedNames, hso, hb, Bool.false_eq_true, reduceIte] at hs
            obtain ⟨h1, h2⟩ := ih s hs
            exact ⟨h1, List.mem_cons_of_mem _ h2⟩
          | true =>
            simp only [cleanedNames, hso, hb, reduceIte] at hs
            rcases List.mem_cons.mp hs with h | h
            · subst h
              refine ⟨by simpa using hb, ?_⟩
              rw [← stripOriginOf_eq nm s hso]
              exact List.mem_cons_self _ _
            · obtain ⟨h1, h2⟩ := ih s h
              exact ⟨h1, List.mem_cons_of_mem _ h2⟩

/-! ## Theorems for provisioning and remote listing -/

/-- C4: whenever either provisioning operation completes without error,
the new local branch tracks origin of the requested remote branch — its
remote config key is origin and its merge config key is the remote
branch under refs/heads — and the new branch ref points at exactly the
commit that the origin remote-tracking ref resolved to. -/
theorem provision_sets_tracking (repo : Repo) (rb n p : String) :
    ((create_and_checkout repo rb n).2 = none →
      configGet (create_and_checkout repo rb n).1 ("branch." ++ n ++ ".remote")
          = some "origin" ∧
      configGet (create_and_checkout repo rb n).1 ("branch." ++ n ++ ".merge")
          = some ("refs/heads/" ++ rb) ∧
      ∃ oid, findReference repo ("refs/remotes/origin/" ++ rb) = some (some oid) ∧
        findReference (create_and_checkout repo rb n).1 ("refs/heads/" ++ n)
          = some (some oid)) ∧
    ((create_worktree repo rb n p).2 = none →
      configGet (create_worktree repo rb n p).1 ("branch." ++ n ++ ".remote")
          = some "origin" ∧
      configGet (create_worktree repo rb n p).1 ("branch." ++ n ++ ".merge")
          = some ("refs/heads/" ++ rb) ∧
      ∃ oid, findReference repo ("refs/remotes/origin/" ++ rb) = some (some oid) ∧
        findReference (create_worktree repo rb n p).1 ("refs/heads/" ++ n)
          = some (some oid)) := by
  constructor
  · intro hok
    cases hr : findReference repo ("refs/remotes/origin/" ++ rb) with
    | none => simp [create_and_checkout, hr] at hok
    | some o =>
      cases o with
      | none => simp [create_and_checkout, hr] at hok
      | some oid =>
        cases hcol : (findReference repo ("refs/heads/" ++ n)).isSome with
        | true => simp [create_and_checkout, hr, hcol] at hok
        | false =>
          cases hd : repo.workdirDirty with
          | true => simp [create_and_checkout, hr, hcol, hd] at hok
          | false =>
            refine ⟨?_, ?_, ?_⟩
            · simp only [create_and_checkout, hr, hcol, hd, Bool.false_eq_true,
                reduceIte]
              rw [configGet_set_other _ _ _ _ (branch_config_keys_ne n).symm,
                configGet_set_self]
            · simp only [create_and_checkout, hr, hcol, hd, Bool.false_eq_true,
                reduceIte]
              rw [configGet_set_self]
            · refine ⟨oid, rfl, ?_⟩
              simp only [create_and_checkout, hr, hcol, hd, Bool.false_eq_true,
                reduceIte]
              simp [configSet, findReference, List.find?]
  · intro hok
    cases hr : findReference repo ("refs/remotes/origin/" ++ rb) with
    | none => simp [create_worktree, hr] at hok
    | some o =>
      cases o with
      | none => simp [create_worktree, hr] at hok
      | some oid =>
        cases hcol : (findReference repo ("refs/heads/" ++ n)).isSome with
        | true => simp [create_worktree, hr, hcol] at hok
        | false =>
          cases hw : repo.worktreeAddOk with
          | false => simp [create_worktree, hr, hcol, hw] at hok
          | true =>
            refine ⟨?_, ?_, ?_⟩
            · simp only [create_worktree, hr, hcol, hw, Bool.not_true,
                Bool.false_eq_true, reduceIte]
              rw [configGet_set_other _ _ _ _ (branch_config_keys_ne n).symm,
                configGet_set_self]
            · simp only [create_worktree, hr, hcol, hw, Bool.not_true,
                Bool.false_eq_true, reduceIte]
              rw [configGet_set_self]
            · refine ⟨oid, rfl, ?_⟩
              simp only [create_worktree, hr, hcol, hw, Bool.not_true,
                Bool.false_eq_true, reduceIte]
              simp [configSet, findReference, List.find?]

/-- Concrete repository for the C4 witness: a resolvable remote ref, no
colliding branch, a clean working tree, and a backend that can add a
worktree. -/
def c4Repo : Repo :=
  { refs := [("refs/remotes/origin/main", some 7)], config := [],
    headRef := "refs/heads/dev", workdirDirty := false, worktreeAddOk := true,
    worktrees := [] }

/-- Witness for C4, discharging the success hypotheses of both
provisioning paths at a concrete repository. -/
theorem provision_sets_tracking_witness :
    (configGet (create_and_checkout c4Repo "main" "feat").1 "branch.feat.remote"
        = some "origin" ∧
      configGet (create_and_checkout c4Repo "main" "feat").1 "branch.feat.merge"
        = some "refs/heads/main" ∧
      ∃ oid, findReference c4Repo "refs/remotes/origin/main" = some (some oid) ∧
        findReference (create_and_checkout c4Repo "main" "feat").1
          "refs/heads/feat" = some (some oid)) ∧
    (configGet (create_worktree c4Repo "main" "feat" "/wt").1 "branch.feat.remote"
        = some "origin" ∧
      configGet (create_worktree c4Repo "main" "feat" "/wt").1 "branch.feat.merge"
        = some "refs/heads/main" ∧
      ∃ oid, findReference c4Repo "refs/remotes/origin/main" = some (some oid) ∧
        findReference (create_worktree c4Repo "main" "feat" "/wt").1
          "refs/heads/feat" = some (some oid)) := by
  obtain ⟨h1, h2⟩ := provision_sets_tracking c4Repo "main" "feat" "/wt"
  exact ⟨h1 rfl, h2 rfl⟩

/-- Concrete repository refuting C5: a clean remote ref, no colliding
branch, but uncommitted changes that block the checkout. -/
def c5Repo : Repo :=
  { refs := [("refs/remotes/origin/main", some 7)], config := [],
    headRef := "refs/heads/dev", workdirDirty := true, worktreeAddOk := true,
    worktrees := [] }

/-- C5 counterexample: when uncommitted changes block the checkout,
create_and_checkout aborts — but the freshly created branch ref
refs/heads/feat exists in the resulting state, pointing at the remote
commit, so prior repository state is not left untouched. -/
theorem create_and_checkout_c5_counterexample :
    (create_and_checkout c5Repo "main" "feat").2 = some GitError.checkoutFailed ∧
    findReference (create_and_checkout c5Repo "main" "feat").1 "refs/heads/feat"
      = some (some 7) := by
  constructor <;> rfl

/-- C5 amended: a branch-name collision aborts either provisioning
operation with the collision error and leaves the whole state untouched; a
missing origin remote aborts the listing with the remediation error; a
checkout blocked by uncommitted changes aborts create_and_checkout leaving
HEAD, config and worktree metadata untouched, except that the local branch
created just before the checkout remains, pointing at the remote commit. -/
theorem precondition_failures_abort (repo : Repo) (rrepo : RemoteRepo)
    (rb n p : String) :
    (∀ oid, findReference repo ("refs/remotes/origin/" ++ rb) = some (some oid) →
      (findReference repo ("refs/heads/" ++ n)).isSome = true →
      create_and_checkout repo rb n = (repo, some (.branchCreateFailed n)) ∧
      create_worktree repo rb n p = (repo, some (.branchCreateFailed n))) ∧
    (rrepo.remotes.contains "origin" = false →
      list_remote_branches rrepo = .error .missingOriginRemote) ∧
    (∀ oid, findReference repo ("refs/remotes/origin/" ++ rb) = some (some oid) →
      (findReference repo ("refs/heads/" ++ n)).isSome = false →
      repo.workdirDirty = true →
      (create_and_checkout repo rb n).2 = some GitError.checkoutFailed ∧
      (create_and_checkout repo rb n).1.headRef = repo.headRef ∧
      (create_and_checkout repo rb n).1.config = repo.config ∧
      (create_and_checkout repo rb n).1.worktrees = repo.worktrees ∧
      findReference (create_and_checkout repo rb n).1 ("refs/heads/" ++ n)
        = some (some oid)) := by
  refine ⟨?_, ?_, ?_⟩
  · intro oid hr hcol
    constructor <;> simp [create_and_checkout, create_worktree, hr, hcol]
  · intro h
    have h' : "origin" ∉ rrepo.remotes := by simpa using h
    simp [list_remote_branches, h']
  · intro oid hr hcol hd
    simp only [create_and_checkout, hr, hcol, hd, Bool.false_eq_true, reduceIte]
    simp [findReference, List.find?]

/-- Concrete repository with a colliding branch name for the C5 witness. -/
def c5CollisionRepo : Repo :=
  { refs := [("refs/remotes/origin/main", some 7), ("refs/heads/feat", some 3)],
    config := [], headRef := "refs/heads/dev", workdirDirty := false,
    worktreeAddOk := true, worktrees := [] }

/-- Concrete backend with no origin remote for the C5 witness. -/
def c5NoOriginRepo : RemoteRepo :=
  { remotes := ["upstream"], remoteBranches := [] }

/-- Witness for the amended C5 at concrete inputs covering all three
precondition failures. -/
theorem precondition_failures_abort_witness :
    (create_and_checkout c5CollisionRepo "main" "feat"
        = (c5CollisionRepo, some (.branchCreateFailed "feat")) ∧
      create_worktree c5CollisionRepo "main" "feat" "/wt"
        = (c5CollisionRepo, some (.branchCreateFailed "feat"))) ∧
    list_remote_branches c5NoOriginRepo = .error .missingOriginRemote ∧
    ((create_and_checkout c5Repo "main" "feat").2 = some GitError.checkoutFailed ∧
      (create_and_checkout c5Repo "main" "feat").1.headRef = c5Repo.headRef ∧
      (create_and_checkout c5Repo "main" "feat").1.config = c5Repo.config ∧
      (create_and_checkout c5Repo "main" "feat").1.worktrees = c5Repo.worktrees ∧
      findReference (create_and_checkout c5Repo "main" "feat").1 "refs/heads/feat"
        = some (some 7)) := by
  obtain ⟨h1, h2, h3⟩ :=
    precondition_failures_abort c5CollisionRepo c5NoOriginRepo "main" "feat" "/wt"
  refine ⟨h1 7 rfl rfl, h2 rfl, ?_⟩
  exact (precondition_failures_abort c5Repo c5NoOriginRepo "main" "feat" "/wt").2.2
    7 rfl rfl rfl

/-- C6: when worktree materialization fails after the local branch was
created, create_worktree surfaces the failure and the branch is left in
place pointing at the remote commit, while worktree metadata, config and
HEAD are untouched; the branch-creation step is fully sequenced before the
worktree step begins (in the embedding the worktree step runs on the state
to which the branch write has already been committed). -/
theorem create_worktree_branch_left_on_failure (repo : Repo) (rb n p : String)
    (oid : Nat)
    (h1 : findReference repo ("refs/remotes/origin/" ++ rb) = some (some oid))
    (h2 : (findReference repo ("refs/heads/" ++ n)).isSome = false)
    (h3 : repo.worktreeAddOk = false) :
    (create_worktree repo rb n p).2 = some GitError.worktreeAddFailed ∧
    findReference (create_worktree repo rb n p).1 ("refs/heads/" ++ n)
      = some (some oid) ∧
    (create_worktree repo rb n p).1.worktrees = repo.worktrees ∧
    (create_worktree repo rb n p).1.config = repo.config ∧
    (create_worktree repo rb n p).1.headRef = repo.headRef := by
  simp only [create_worktree, h1, h2, h3, Bool.not_false, Bool.false_eq_true,
    reduceIte, if_true]
  simp [findReference, List.find?]

/-- Concrete repository for the C6 witness: the backend worktree-add call
fails. -/
def c6Repo : Repo :=
  { refs := [("refs/remotes/origin/main", some 7)], config := [],
    headRef := "refs/heads/dev", workdirDirty := false, worktreeAddOk := false,
    worktrees := [] }

/-- Witness for C6 at a concrete repository. -/
theorem create_worktree_branch_left_on_failure_witness :
    (create_worktree c6Repo "main" "feat" "/wt").2
        = some GitError.worktreeAddFailed ∧
    findReference (create_worktree c6Repo "main" "feat" "/wt").1 "refs/heads/feat"
      = some (some 7) ∧
    (create_worktree c6Repo "main" "feat" "/wt").1.worktrees = c6Repo.worktrees ∧
    (create_worktree c6Repo "main" "feat" "/wt").1.config = c6Repo.config ∧
    (create_worktree c6Repo "main" "feat" "/wt").1.headRef = c6Repo.headRef :=
  create_worktree_branch_left_on_failure c6Repo "main" "feat" "/wt" 7 rfl rfl rfl

/-- C10: the listing fails with the missing-remote error when no origin
remote exists; with origin present and a clean enumeration it returns
exactly the origin-tracking names, stripped of the origin marker, with the
symbolic HEAD excluded, in enumeration order; and any successful result
consists only of such names — branches of other remotes never appear. -/
theorem list_remote_branches_origin_only (rrepo : RemoteRepo) :
    (rrepo.remotes.contains "origin" = false →
      list_remote_branches rrepo = .error .missingOriginRemote) ∧
    (rrepo.remotes.contains "origin" = true →
      enumerationClean rrepo.remoteBranches = true →
      list_remote_branches rrepo = .ok (cleanedNames rrepo.remoteBranches)) ∧
    (∀ l, list_remote_branches rrepo = .ok l →
      l = cleanedNames rrepo.remoteBranches ∧
      ∀ s ∈ l, s ≠ "HEAD" ∧
        RemoteBranchItem.named (some ("origin/" ++ s)) ∈ rrepo.remoteBranches) := by
  refine ⟨?_, ?_, ?_⟩
  · intro h
    have h' : "origin" ∉ rrepo.remotes := by simpa using h
    simp [list_remote_branches, h']
  · intro h hc
    have h' : "origin" ∈ rrepo.remotes := by simpa using h
    simp [list_remote_branches, h', collectRemoteNames_of_clean _ hc]
  · intro l hl
    cases hco : rrepo.remotes.contains "origin" with
    | false =>
      have h' : "origin" ∉ rrepo.remotes := by simpa using hco
      simp [list_remote_branches, h'] at hl
    | true =>
      have h' : "origin" ∈ rrepo.remotes := by simpa using hco
      cases hcr : collectRemoteNames rrepo.remoteBranches with
      | none => simp [list_remote_branches, h', hcr] at hl
      | some l2 =>
        simp only [list_remote_branches, hco, Bool.not_true, Bool.false_eq_true,
          reduceIte, hcr, Except.ok.injEq] at hl
        have heq := collectRemoteNames_some_eq rrepo.remoteBranches l2 hcr
        rw [← hl, heq]
        refine ⟨rfl, ?_⟩
        intro s hs
        exact cleanedNames_mem rrepo.remoteBranches s hs

/-- Concrete backend for the C10 witness: origin plus branches of another
remote, the symbolic HEAD entry, and an invalid name. -/
def c10Repo : RemoteRepo :=
  { remotes := ["origin"],
    remoteBranches := [RemoteBranchItem.named (some "origin/main"),
      RemoteBranchItem.named (some "origin/HEAD"),
      RemoteBranchItem.named (some "upstream/dev"),
      RemoteBranchItem.named none] }

/-- Witness for C10 at concrete inputs, discharging every hypothesis. -/
theorem list_remote_branches_origin_only_witness :
    list_remote_branches c5NoOriginRepo = .error .missingOriginRemote ∧
    list_remote_branches c10Repo = .ok (cleanedNames c10Repo.remoteBranches) ∧
    ("main" ≠ "HEAD" ∧
      RemoteBranchItem.named (some ("origin/" ++ "main")) ∈ c10Repo.remoteBranches) := by
  refine ⟨(list_remote_branches_origin_only c5NoOriginRepo).1 rfl, ?_, ?_⟩
  · exact (list_remote_branches_origin_only c10Repo).2.1 rfl rfl
  · exact ((list_remote_branches_origin_only c10Repo).2.2
      (cleanedNames c10Repo.remoteBranches)
      ((list_remote_branches_origin_only c10Repo).2.1 rfl rfl)).2 "main" (by decide)

end GitBranchPicker
